import Mathlib

/-!
Verification of the nestjs-graphql-crud dynamic CRUD module generator.

This file shallowly embeds the parts of the repository that the checked
properties are about:

* the CRUD service produced by `createBaseCrudService`
  (src/createBaseCrudService.ts): `findMany` argument normalization,
  mutation-then-publish sequencing, bulk pre-fetch snapshots, and relation
  resolution helpers;
* the combined relation resolver (src/createCombinedRelationResolverClass.ts):
  `resolveOneToOne` and `resolveOneToMany`;
* the resolver synthesis chain (src/createBaseCrudResolver.ts plus the
  relation/custom extension factories) viewed as the list of exposed
  operation descriptors;
* the configuration builder (src/crudModuleConfig.ts);
* the default subscription resolver (src/createSubscriptionResolver.ts).

JavaScript `undefined`/`null` is modelled by `Option`, promise rejection by
`Except String`, and JS objects whose keys matter by association lists with
spread-override semantics.  External collaborators (data provider, pub-sub,
field-selection) are parameters: arbitrary Lean functions standing for the
pluggable implementations, instrumented with explicit call traces where a
property talks about which calls are or are not made.
-/

namespace NestjsCrud

/-- An entity row as seen through the storage collaborator: an `id` (every
entity managed by the library has one; the subscription filter and the
relation resolvers read it) and one numeric attribute standing for the rest of
the record. -/
structure Entity where
  id : String
  val : Nat
deriving DecidableEq, Repr

/-- The `CrudAction` enum of src/internalTypes.ts: the action tag carried by
every published subscription event. -/
inductive CrudAction where
  | CREATE
  | UPDATE
  | DELETE
  | UPDATE_MANY
  | DELETE_MANY
deriving DecidableEq, Repr

/-- A `SubscriptionEvent` as built by `BaseCrudService.publish`
(src/createBaseCrudService.ts lines 298-305): the action tag and the array of
affected entities (singular payloads are wrapped in a one-element array). -/
structure SubscriptionEvent where
  action : CrudAction
  data : List Entity
deriving DecidableEq, Repr

/-- `PaginationContract` (src/internalTypes.ts): `take` and `skip`.  The
fields are `Option` because the custom-args branch of `findMany` copies
`args.take`/`args.skip` verbatim, and those may be `undefined`. -/
structure PaginationContract where
  take : Option Int
  skip : Option Int
deriving DecidableEq, Repr

/-! ## C1 — `findMany` argument normalization

`BaseCrudService.findMany` (src/createBaseCrudService.ts lines 136-168)
accepts either the default `FindManyContract` shape
`{ where?, pagination? }` or a custom prisma-style args object carrying
`take`/`skip`/`orderBy`/`cursor`/`distinct` at top level, and normalizes both
into one object passed to `dataProvider.findMany`.  The where clause is kept
opaque (an association list), order-by/cursor/distinct as strings. -/

/-- A where-input value.  Concrete (an association list of field conditions)
so that normalization results can be compared by `decide`. -/
abbrev WhereInput := List (String × String)

/-- The argument object received by `BaseCrudService.findMany`, with every
field it reads.  A default-shaped call populates `whereArg`/`pagination`; a
custom-shaped call populates `whereArg`/`take`/`skip`/`orderBy`/`cursor`/
`distinct`.  `whereArg` renders the source field `where` (a Lean keyword). -/
structure FindManyArgs where
  whereArg : Option WhereInput
  pagination : Option PaginationContract
  take : Option Int
  skip : Option Int
  orderBy : Option String
  cursor : Option String
  distinct : Option String
deriving DecidableEq, Repr

/-- The normalized object `BaseCrudService.findMany` hands to
`dataProvider.findMany` (field `normalizedArgs` in the source).  The default
branch writes `orderBy: undefined` and leaves `cursor`/`distinct` absent;
both absences read back as `undefined`, i.e. `none`. -/
structure NormalizedFindManyArgs where
  whereArg : WhereInput
  pagination : Option PaginationContract
  orderBy : Option String
  cursor : Option String
  distinct : Option String
deriving DecidableEq, Repr

/-- The normalization step of `BaseCrudService.findMany`
(src/createBaseCrudService.ts lines 138-160), verbatim: if `args.where` or
`args.pagination` is defined the argument is treated as a default
`FindManyContract`; otherwise the custom fields are extracted.  `args.where
|| {}` falls back to the empty where clause only when `where` is undefined
(objects are truthy). -/
def findManyNormalize (args : FindManyArgs) : NormalizedFindManyArgs :=
  if args.whereArg.isSome || args.pagination.isSome then
    { whereArg := args.whereArg.getD []
      pagination := args.pagination
      orderBy := none
      cursor := none
      distinct := none }
  else
    { whereArg := args.whereArg.getD []
      pagination := some { take := args.take, skip := args.skip }
      orderBy := args.orderBy
      cursor := args.cursor
      distinct := args.distinct }

/-- A default-shaped findMany argument `{ where: W, pagination: { take: 10,
skip: 0 } }` with `W = [("name", "jo")]`. -/
def defaultShapedArgs : FindManyArgs :=
  { whereArg := some [("name", "jo")]
    pagination := some { take := some 10, skip := some 0 }
    take := none
    skip := none
    orderBy := none
    cursor := none
    distinct := none }

/-- The semantically equal custom-shaped argument
`{ where: W, take: 10, skip: 0, orderBy: O }` with the same `W`. -/
def customShapedArgs : FindManyArgs :=
  { whereArg := some [("name", "jo")]
    pagination := none
    take := some 10
    skip := some 0
    orderBy := some "createdAt desc"
    cursor := none
    distinct := none }

/-- Claim C1 (code_bug evidence): the two semantically equal findMany
arguments do NOT normalize to the same internal storage call.  Because the
custom-shaped argument has `where` defined, the detection condition
`args.where !== undefined || args.pagination !== undefined` routes it into the
default branch, which discards its `take`, `skip` and `orderBy`: the
normalized pagination comes out `undefined` instead of `{ take: 10, skip: 0 }`.
This contradicts the documented behavior (README: the library automatically
detects which format is used and handles both seamlessly). -/
theorem findMany_normalization_not_shape_invariant :
    findManyNormalize defaultShapedArgs ≠ findManyNormalize customShapedArgs ∧
    (findManyNormalize customShapedArgs).pagination = none ∧
    (findManyNormalize customShapedArgs).orderBy = none ∧
    (findManyNormalize defaultShapedArgs).pagination =
      some { take := some 10, skip := some 0 } := by
  decide

/-! ## The CRUD service mutations (C2, C5)

`BaseCrudService` (src/createBaseCrudService.ts) delegates each mutation to
the injected `dataProvider`, then `await`s `this.publish(action, result)`,
then returns the storage result.  The collaborators are modelled by arbitrary
functions returning `Except String` (promise resolution/rejection).  Each run
additionally yields the list of `pubSub.publish` calls made — pairs of
(channel, event) — so that "exactly one event is published" and "zero events
are published" are statable. -/

/-- Payload types of the service, instantiated concretely so witnesses can be
evaluated: inputs are association lists of field values, the selection is the
list of requested field names, the ability an opaque string. -/
abbrev CreateInput := List (String × String)

/-- Update payload (same concrete shape as `CreateInput`). -/
abbrev UpdateInput := List (String × String)

/-- Bulk-update payload. -/
abbrev UpdateManyInput := List (String × String)

/-- Parsed field selection. -/
abbrev Select := List String

/-- Authorization context ("ability"): opaque to the core. -/
abbrev Ability := String

/-- The storage collaborator (the `DataProvider` contract of
src/internalTypes.ts) as consumed by the service mutations: each method is an
arbitrary function whose `Except` value is the settled promise. -/
structure DataProvider where
  create : CreateInput → Select → Except String Entity
  update : Ability → UpdateInput → String → Select → Except String Entity
  delete : Ability → String → Select → Except String Entity
  findMany : Ability → WhereInput → Select → Except String (List Entity)
  updateMany : Ability → UpdateManyInput → WhereInput → Select → Except String (List Entity)
  deleteMany : Ability → WhereInput → Select → Except String (List Entity)

/-- The pub-sub collaborator: `pubSub.publish(channel, payload)` with its
settled outcome. -/
abbrev PubSubBehavior := String → SubscriptionEvent → Except String Unit

/-- `BaseCrudService.publish` wraps a non-array payload into a one-element
array (src/createBaseCrudService.ts line 299). -/
def toArrayData : Entity ⊕ List Entity → List Entity
  | .inl e => [e]
  | .inr l => l

/-- Outcome of one service-mutation run: the value returned (or rejection)
to the caller, and the `pubSub.publish` calls made during the run, in order. -/
structure MutationRun (α : Type) where
  result : Except String α
  publishCalls : List (String × SubscriptionEvent)
deriving Repr

/-- `BaseCrudService.create` (src/createBaseCrudService.ts lines 71-79):
`await dataProvider.create`; on success build the CREATE event, `await
this.publish` (which calls `pubSub.publish(modelName, event)`), and only then
return the storage result.  A rejection at either await rejects the whole
call. -/
def serviceCreate (dp : DataProvider) (pub : PubSubBehavior) (modelName : String)
    (data : CreateInput) (select : Select) : MutationRun Entity :=
  match dp.create data select with
  | .error e => { result := .error e, publishCalls := [] }
  | .ok res =>
      let ev : SubscriptionEvent := { action := .CREATE, data := toArrayData (.inl res) }
      match pub modelName ev with
      | .error e => { result := .error e, publishCalls := [(modelName, ev)] }
      | .ok _ => { result := .ok res, publishCalls := [(modelName, ev)] }

/-- `BaseCrudService.update` (src/createBaseCrudService.ts lines 196-207):
storage update, then publish UPDATE, then return. -/
def serviceUpdate (dp : DataProvider) (pub : PubSubBehavior) (modelName : String)
    (ability : Ability) (data : UpdateInput) (whereId : String) (select : Select) :
    MutationRun Entity :=
  match dp.update ability data whereId select with
  | .error e => { result := .error e, publishCalls := [] }
  | .ok res =>
      let ev : SubscriptionEvent := { action := .UPDATE, data := toArrayData (.inl res) }
      match pub modelName ev with
      | .error e => { result := .error e, publishCalls := [(modelName, ev)] }
      | .ok _ => { result := .ok res, publishCalls := [(modelName, ev)] }

/-- `BaseCrudService.delete` (src/createBaseCrudService.ts lines 89-98):
storage delete, then publish DELETE, then return. -/
def serviceDelete (dp : DataProvider) (pub : PubSubBehavior) (modelName : String)
    (ability : Ability) (whereId : String) (select : Select) : MutationRun Entity :=
  match dp.delete ability whereId select with
  | .error e => { result := .error e, publishCalls := [] }
  | .ok res =>
      let ev : SubscriptionEvent := { action := .DELETE, data := toArrayData (.inl res) }
      match pub modelName ev with
      | .error e => { result := .error e, publishCalls := [(modelName, ev)] }
      | .ok _ => { result := .ok res, publishCalls := [(modelName, ev)] }

/-- `BaseCrudService.updateMany` (src/createBaseCrudService.ts lines 218-236):
pre-fetch the rows matching `where`, run the bulk update (its return value is
discarded), publish UPDATE_MANY with the pre-fetch result, return the
pre-fetch result. -/
def serviceUpdateMany (dp : DataProvider) (pub : PubSubBehavior) (modelName : String)
    (ability : Ability) (data : UpdateManyInput) (whereArg : WhereInput) (select : Select) :
    MutationRun (List Entity) :=
  match dp.findMany ability whereArg select with
  | .error e => { result := .error e, publishCalls := [] }
  | .ok gotUpdated =>
      match dp.updateMany ability data whereArg select with
      | .error e => { result := .error e, publishCalls := [] }
      | .ok _ =>
          let ev : SubscriptionEvent :=
            { action := .UPDATE_MANY, data := toArrayData (.inr gotUpdated) }
          match pub modelName ev with
          | .error e => { result := .error e, publishCalls := [(modelName, ev)] }
          | .ok _ => { result := .ok gotUpdated, publishCalls := [(modelName, ev)] }

/-- `BaseCrudService.deleteMany` (src/createBaseCrudService.ts lines 108-125):
pre-fetch, bulk delete (result discarded), publish DELETE_MANY with the
pre-fetch result, return the pre-fetch result. -/
def serviceDeleteMany (dp : DataProvider) (pub : PubSubBehavior) (modelName : String)
    (ability : Ability) (whereArg : WhereInput) (select : Select) :
    MutationRun (List Entity) :=
  match dp.findMany ability whereArg select with
  | .error e => { result := .error e, publishCalls := [] }
  | .ok gotDeleted =>
      match dp.deleteMany ability whereArg select with
      | .error e => { result := .error e, publishCalls := [] }
      | .ok _ =>
          let ev : SubscriptionEvent :=
            { action := .DELETE_MANY, data := toArrayData (.inr gotDeleted) }
          match pub modelName ev with
          | .error e => { result := .error e, publishCalls := [(modelName, ev)] }
          | .ok _ => { result := .ok gotDeleted, publishCalls := [(modelName, ev)] }

/-- A data provider whose every operation succeeds with fixed values, for
concrete counterexamples and witnesses. -/
def dpAllOk : DataProvider :=
  { create := fun _ _ => .ok { id := "e1", val := 1 }
    update := fun _ _ _ _ => .ok { id := "e1", val := 2 }
    delete := fun _ _ _ => .ok { id := "e1", val := 1 }
    findMany := fun _ _ _ => .ok [{ id := "e1", val := 1 }]
    updateMany := fun _ _ _ _ => .ok []
    deleteMany := fun _ _ _ => .ok [] }

/-- A pub-sub whose publish always rejects. -/
def pubSubFailing : PubSubBehavior := fun _ _ => .error "publish failed"

/-- A pub-sub whose publish always resolves. -/
def pubSubOk : PubSubBehavior := fun _ _ => .ok ()

/-- Claim C2 (counterexample): with a storage create that succeeds and a
publish that rejects, `BaseCrudService.create` does NOT return its own result
to the caller — the publish rejection propagates (the method `await`s
`this.publish` before returning), so the mutation rejects with the publish
error instead of resolving with the created entity. -/
theorem create_publish_failure_propagates_cex :
    (serviceCreate dpAllOk pubSubFailing "user" [] []).result = .error "publish failed" ∧
    (serviceCreate dpAllOk pubSubFailing "user" [] []).result ≠
      .ok { id := "e1", val := 1 } := by
  refine ⟨rfl, ?_⟩
  intro h
  exact Except.noConfusion h

/-- Claim C2 (amended): for every mutation (create, update, updateMany,
delete, deleteMany), when the storage operation succeeds the mutation resolves
with the storage result exactly when the subsequent publish resolves; a
publish rejection propagates to the caller as the mutation outcome.  (The
publish is awaited, not fire-and-forget.) -/
theorem mutation_result_follows_publish_outcome
    (dp : DataProvider) (pub : PubSubBehavior) (m : String) (a : Ability)
    (cdata : CreateInput) (udata : UpdateInput) (umdata : UpdateManyInput)
    (w : WhereInput) (wid : String) (s : Select) :
    (∀ res, dp.create cdata s = .ok res →
      (serviceCreate dp pub m cdata s).result =
        (pub m { action := .CREATE, data := [res] }).map (fun _ => res)) ∧
    (∀ res, dp.update a udata wid s = .ok res →
      (serviceUpdate dp pub m a udata wid s).result =
        (pub m { action := .UPDATE, data := [res] }).map (fun _ => res)) ∧
    (∀ res, dp.delete a wid s = .ok res →
      (serviceDelete dp pub m a wid s).result =
        (pub m { action := .DELETE, data := [res] }).map (fun _ => res)) ∧
    (∀ pre, dp.findMany a w s = .ok pre → (∃ u, dp.updateMany a umdata w s = .ok u) →
      (serviceUpdateMany dp pub m a umdata w s).result =
        (pub m { action := .UPDATE_MANY, data := pre }).map (fun _ => pre)) ∧
    (∀ pre, dp.findMany a w s = .ok pre → (∃ d, dp.deleteMany a w s = .ok d) →
      (serviceDeleteMany dp pub m a w s).result =
        (pub m { action := .DELETE_MANY, data := pre }).map (fun _ => pre)) := by
  refine ⟨?_, ?_, ?_, ?_, ?_⟩
  · intro res h
    simp only [serviceCreate, h, toArrayData]
    cases pub m { action := .CREATE, data := [res] } <;> simp [Except.map]
  · intro res h
    simp only [serviceUpdate, h, toArrayData]
    cases pub m { action := .UPDATE, data := [res] } <;> simp [Except.map]
  · intro res h
    simp only [serviceDelete, h, toArrayData]
    cases pub m { action := .DELETE, data := [res] } <;> simp [Except.map]
  · intro pre h hu
    obtain ⟨u, hu⟩ := hu
    simp only [serviceUpdateMany, h, hu, toArrayData]
    cases pub m { action := .UPDATE_MANY, data := pre } <;> simp [Except.map]
  · intro pre h hd
    obtain ⟨d, hd⟩ := hd
    simp only [serviceDeleteMany, h, hd, toArrayData]
    cases pub m { action := .DELETE_MANY, data := pre } <;> simp [Except.map]

/-- Witness for the amended C2 theorem at a concrete data provider: with
every storage call succeeding and the publish rejecting, the create mutation
rejects with the publish error. -/
theorem mutation_result_follows_publish_outcome_witness :
    (serviceCreate dpAllOk pubSubFailing "user" [] []).result =
      (pubSubFailing "user" { action := .CREATE, data := [{ id := "e1", val := 1 }] }).map
        (fun _ => ({ id := "e1", val := 1 } : Entity)) :=
  (mutation_result_follows_publish_outcome dpAllOk pubSubFailing "user" "a"
    [] [] [] [] "id1" []).1 { id := "e1", val := 1 } rfl

/-- Claim C5: for every `create`/`update`/`delete` call, if the storage
operation resolves successfully then the run makes exactly one
`pubSub.publish` call, on the model's channel, carrying the corresponding
action tag and the storage result wrapped in a one-element array — the call
is made after the storage promise resolves (its payload is built from the
storage result) and before the service returns; if the storage operation
rejects, the run makes zero publish calls. -/
theorem mutation_publishes_exactly_one_event
    (dp : DataProvider) (pub : PubSubBehavior) (m : String) (a : Ability)
    (cdata : CreateInput) (udata : UpdateInput) (wid : String) (s : Select) :
    (∀ res, dp.create cdata s = .ok res →
      (serviceCreate dp pub m cdata s).publishCalls =
        [(m, { action := .CREATE, data := [res] })]) ∧
    (∀ e, dp.create cdata s = .error e →
      (serviceCreate dp pub m cdata s).publishCalls = []) ∧
    (∀ res, dp.update a udata wid s = .ok res →
      (serviceUpdate dp pub m a udata wid s).publishCalls =
        [(m, { action := .UPDATE, data := [res] })]) ∧
    (∀ e, dp.update a udata wid s = .error e →
      (serviceUpdate dp pub m a udata wid s).publishCalls = []) ∧
    (∀ res, dp.delete a wid s = .ok res →
      (serviceDelete dp pub m a wid s).publishCalls =
        [(m, { action := .DELETE, data := [res] })]) ∧
    (∀ e, dp.delete a wid s = .error e →
      (serviceDelete dp pub m a wid s).publishCalls = []) := by
  refine ⟨?_, ?_, ?_, ?_, ?_, ?_⟩
  · intro res h
    simp only [serviceCreate, h, toArrayData]
    cases pub m { action := .CREATE, data := [res] } <;> simp
  · intro e h
    simp [serviceCreate, h]
  · intro res h
    simp only [serviceUpdate, h, toArrayData]
    cases pub m { action := .UPDATE, data := [res] } <;> simp
  · intro e h
    simp [serviceUpdate, h]
  · intro res h
    simp only [serviceDelete, h, toArrayData]
    cases pub m { action := .DELETE, data := [res] } <;> simp
  · intro e h
    simp [serviceDelete, h]

/-- A data provider whose every operation rejects, for the zero-events side
of the C5 witness. -/
def dpAllFail : DataProvider :=
  { create := fun _ _ => .error "db down"
    update := fun _ _ _ _ => .error "db down"
    delete := fun _ _ _ => .error "db down"
    findMany := fun _ _ _ => .error "db down"
    updateMany := fun _ _ _ _ => .error "db down"
    deleteMany := fun _ _ _ => .error "db down" }

/-- Witness for C5 at concrete collaborators: a successful create publishes
exactly the one CREATE event on channel "user", and a failing create
publishes nothing. -/
theorem mutation_publishes_exactly_one_event_witness :
    (serviceCreate dpAllOk pubSubOk "user" [] []).publishCalls =
      [("user", { action := .CREATE, data := [{ id := "e1", val := 1 }] })] ∧
    (serviceCreate dpAllFail pubSubOk "user" [] []).publishCalls = [] :=
  ⟨(mutation_publishes_exactly_one_event dpAllOk pubSubOk "user" "a" [] [] "id1" []).1
      { id := "e1", val := 1 } rfl,
    (mutation_publishes_exactly_one_event dpAllFail pubSubOk "user" "a" [] [] "id1" []).2.1
      "db down" rfl⟩

/-! ## C4 — bulk mutations return the pre-mutation snapshot

To talk about "before" and "after" the bulk mutation, the storage
collaborator is instantiated with an in-memory store: a list of entities, a
where clause matching on the numeric attribute, a bulk update setting it.
`serviceUpdateMany`/`serviceDeleteMany` above give the collaborator-abstract
sequencing; the store runs below thread the state through the same sequence
of calls (pre-fetch on the incoming state, then the bulk call on it). -/

/-- A concrete where clause for the store collaborator: `none` matches every
row, `some n` matches rows whose attribute equals `n`. -/
def matchesWhere (w : Option Nat) (e : Entity) : Bool :=
  match w with
  | none => true
  | some n => e.val == n

/-- Store-collaborator `findMany`: the rows matching the where clause. -/
def storeFindMany (st : List Entity) (w : Option Nat) : List Entity :=
  st.filter (matchesWhere w)

/-- Store-collaborator `updateMany`: set the attribute of every matching row
to `n`. -/
def storeUpdateMany (st : List Entity) (n : Nat) (w : Option Nat) : List Entity :=
  st.map (fun e => if matchesWhere w e then { e with val := n } else e)

/-- Store-collaborator `deleteMany`: drop every matching row. -/
def storeDeleteMany (st : List Entity) (w : Option Nat) : List Entity :=
  st.filter (fun e => !matchesWhere w e)

/-- Outcome of one bulk run against the store: entities returned to the
caller, the published event, and the post-mutation store state. -/
structure BulkRun where
  result : List Entity
  published : SubscriptionEvent
  store : List Entity
deriving DecidableEq, Repr

/-- `BaseCrudService.updateMany` (src/createBaseCrudService.ts lines 218-236)
against the store: pre-fetch `gotUpdated` from the incoming state, apply the
bulk update to that same state, publish UPDATE_MANY carrying `gotUpdated`,
return `gotUpdated`. -/
def serviceUpdateManyStore (st : List Entity) (n : Nat) (w : Option Nat) : BulkRun :=
  let gotUpdated := storeFindMany st w
  let st2 := storeUpdateMany st n w
  { result := gotUpdated
    published := { action := .UPDATE_MANY, data := toArrayData (.inr gotUpdated) }
    store := st2 }

/-- `BaseCrudService.deleteMany` (src/createBaseCrudService.ts lines 108-125)
against the store: pre-fetch `gotDeleted`, delete the matching rows, publish
DELETE_MANY carrying `gotDeleted`, return `gotDeleted`. -/
def serviceDeleteManyStore (st : List Entity) (w : Option Nat) : BulkRun :=
  let gotDeleted := storeFindMany st w
  let st2 := storeDeleteMany st w
  { result := gotDeleted
    published := { action := .DELETE_MANY, data := toArrayData (.inr gotDeleted) }
    store := st2 }

/-- Claim C4 (counterexample): running `deleteMany` twice with no intervening
writes does NOT return the same snapshot both times.  On a store holding one
row matching the where clause, the first run returns that row and the second
run returns the empty array — the second pre-fetch sees the post-mutation
state. -/
theorem bulk_rerun_not_same_snapshot_cex :
    (serviceDeleteManyStore [{ id := "e1", val := 1 }] (some 1)).result =
      [{ id := "e1", val := 1 }] ∧
    (serviceDeleteManyStore
        (serviceDeleteManyStore [{ id := "e1", val := 1 }] (some 1)).store
        (some 1)).result = [] ∧
    (serviceDeleteManyStore [{ id := "e1", val := 1 }] (some 1)).result ≠
      (serviceDeleteManyStore
        (serviceDeleteManyStore [{ id := "e1", val := 1 }] (some 1)).store
        (some 1)).result := by
  decide

/-- Claim C4 (amended): for every bulk run, the entity array returned to the
caller and the array published in the UPDATE_MANY/DELETE_MANY event are
exactly the rows fetched by `findMany` on the where clause BEFORE the bulk
mutation — the pre-mutation snapshot, not the post-mutation state (witnessed
by deleteMany, whose returned rows are disjoint from the post-state match
set).  Running the call twice is not snapshot-stable: the second run
snapshots the state left by the first mutation; for deleteMany the second
run always returns the empty array. -/
theorem bulk_mutation_returns_premutation_snapshot (st : List Entity) (n : Nat)
    (w : Option Nat) :
    (serviceUpdateManyStore st n w).result = storeFindMany st w ∧
    (serviceUpdateManyStore st n w).published =
      { action := .UPDATE_MANY, data := storeFindMany st w } ∧
    (serviceDeleteManyStore st w).result = storeFindMany st w ∧
    (serviceDeleteManyStore st w).published =
      { action := .DELETE_MANY, data := storeFindMany st w } ∧
    storeFindMany (serviceDeleteManyStore st w).store w = [] ∧
    (serviceDeleteManyStore (serviceDeleteManyStore st w).store w).result = [] := by
  refine ⟨rfl, rfl, rfl, rfl, ?_, ?_⟩
  · simp only [serviceDeleteManyStore, storeDeleteMany, storeFindMany]
    rw [List.filter_filter]
    apply List.filter_eq_nil_iff.mpr
    intro e _
    cases matchesWhere w e <;> simp
  · simp only [serviceDeleteManyStore, storeDeleteMany, storeFindMany]
    rw [List.filter_filter]
    apply List.filter_eq_nil_iff.mpr
    intro e _
    cases matchesWhere w e <;> simp

/-! ## C3 — one-to-one relation resolution

`CombinedRelationResolver.resolveOneToOne`
(src/createCombinedRelationResolverClass.ts lines 108-124): `if (!itemId)
return Promise.resolve(null);` else delegate to
`dataProvider.findOne(targetModel, ability, { id: itemId }, select)`.  The
foreign-key value read off the parent may be `undefined`/`null` (modelled
`none`) or a string; JS truthiness also rejects the empty string.  The run is
instrumented with the list of `findOne` calls made, so that "the storage
collaborator is not invoked" is statable. -/

/-- JS truthiness of a possibly-absent string: `undefined`/`null` and the
empty string are falsy. -/
def jsTruthyStr : Option String → Bool
  | none => false
  | some s => !(s == "")

/-- The `{ id: itemId }` where clause built by `resolveOneToOne`. -/
structure IdWhereClause where
  id : String
deriving DecidableEq, Repr

/-- One `dataProvider.findOne` invocation, as observed by the storage
collaborator. -/
structure FindOneCall where
  targetModel : String
  whereClause : IdWhereClause
  select : Select
deriving DecidableEq, Repr

/-- `resolveOneToOne` (src/createCombinedRelationResolverClass.ts lines
108-124), returning the resolved value together with the `findOne` calls
made. -/
def resolveOneToOne
    (dpFindOne : String → Ability → IdWhereClause → Select → Option Entity)
    (ability : Ability) (targetModel : String) (itemId : Option String)
    (select : Select) : Option Entity × List FindOneCall :=
  if !(jsTruthyStr itemId) then (none, [])
  else
    let idv := itemId.getD ""
    (dpFindOne targetModel ability { id := idv } select,
      [{ targetModel := targetModel, whereClause := { id := idv }, select := select }])

/-- Claim C3: if the foreign-key id is falsy, `resolveOneToOne` resolves to
null and makes no `findOne` call; otherwise it makes exactly the one
`findOne` call on the target model with the `{ id }` where clause under the
given ability, and returns its result. -/
theorem resolveOneToOne_falsy_short_circuits
    (dpFindOne : String → Ability → IdWhereClause → Select → Option Entity)
    (ability : Ability) (targetModel : String) (select : Select)
    (itemId : Option String) :
    (jsTruthyStr itemId = false →
      resolveOneToOne dpFindOne ability targetModel itemId select = (none, [])) ∧
    (∀ s, itemId = some s → jsTruthyStr itemId = true →
      resolveOneToOne dpFindOne ability targetModel itemId select =
        (dpFindOne targetModel ability { id := s } select,
          [{ targetModel := targetModel, whereClause := { id := s }, select := select }])) := by
  constructor
  · intro h
    simp [resolveOneToOne, h]
  · intro s hs ht
    subst hs
    simp [resolveOneToOne, ht]

/-- A constant storage `findOne` used by witnesses. -/
def dpFindOneConst : String → Ability → IdWhereClause → Select → Option Entity :=
  fun _ _ w _ => some { id := w.id, val := 7 }

/-- Witness for C3: with an absent foreign key the resolution is null with
zero storage calls; with foreign key "u1" it is the storage result with
exactly one call. -/
theorem resolveOneToOne_falsy_short_circuits_witness :
    resolveOneToOne dpFindOneConst "a" "profile" none ["id"] = (none, []) ∧
    resolveOneToOne dpFindOneConst "a" "profile" (some "u1") ["id"] =
      (some { id := "u1", val := 7 },
        [{ targetModel := "profile", whereClause := { id := "u1" }, select := ["id"] }]) :=
  ⟨(resolveOneToOne_falsy_short_circuits dpFindOneConst "a" "profile" ["id"] none).1 rfl,
    (resolveOneToOne_falsy_short_circuits dpFindOneConst "a" "profile" ["id"]
      (some "u1")).2 "u1" rfl (by decide)⟩

/-! ## C6 — one-to-many relation resolution

`resolveOneToMany` (src/createCombinedRelationResolverClass.ts lines 77-97,
and identically src/createBaseCrudService.ts lines 266-279) builds the
storage query `{ where: { ...(where?.where || {}), [foreignKey]: itemId },
pagination: where?.pagination }`.  The caller-supplied where clause is a JS
object, modelled as an association list; the spread-then-assign writes the
foreign-key binding last, so it overwrites a same-named caller key (in place)
or is appended. -/

/-- A caller-supplied where object: field name to condition value. -/
abbrev JsObj := List (String × String)

/-- JS `{ ...o, k: v }`: if `k` is a key of `o` its value is replaced in
place, otherwise `(k, v)` is appended. -/
def spreadSet (o : JsObj) (k v : String) : JsObj :=
  if o.any (fun p => p.1 == k) then
    o.map (fun p => if p.1 == k then (k, v) else p)
  else o ++ [(k, v)]

/-- Property lookup on a JS object. -/
def getKey (o : JsObj) (k : String) : Option String :=
  (o.find? (fun p => p.1 == k)).map (fun p => p.2)

/-- The caller's optional filter argument for a one-to-many field:
`FindManyContract` with an optional where object and optional pagination. -/
structure RelationFilterArg where
  whereArg : Option JsObj
  pagination : Option PaginationContract
deriving DecidableEq, Repr

/-- The query object `resolveOneToMany` passes to `dataProvider.findMany`. -/
structure OneToManyQuery where
  whereArg : JsObj
  pagination : Option PaginationContract
deriving DecidableEq, Repr

/-- The query-building step of `resolveOneToMany`
(src/createCombinedRelationResolverClass.ts lines 85-96): spread
`where?.where || {}` then assign `[foreignKey]: itemId`; forward
`where?.pagination`. -/
def resolveOneToManyQuery (foreignKey itemId : String)
    (whereOpt : Option RelationFilterArg) : OneToManyQuery :=
  { whereArg := spreadSet ((whereOpt.bind (fun w => w.whereArg)).getD []) foreignKey itemId
    pagination := whereOpt.bind (fun w => w.pagination) }

/-- `resolveOneToMany` itself: delegate to the storage `findMany` on the
target model with the built query. -/
def resolveOneToMany
    (dpFindMany : String → Ability → OneToManyQuery → Select → List Entity)
    (ability : Ability) (targetModel foreignKey itemId : String) (select : Select)
    (whereOpt : Option RelationFilterArg) : List Entity :=
  dpFindMany targetModel ability (resolveOneToManyQuery foreignKey itemId whereOpt) select

/-- Substituting the `k`-keyed entries of an object and then looking up `k`
finds the substituted value iff `k` was a key. -/
theorem find?_map_subst (k v : String) (o : JsObj) :
    (o.map (fun p => if p.1 == k then (k, v) else p)).find? (fun p => p.1 == k) =
      if o.any (fun p => p.1 == k) then some (k, v) else none := by
  induction o with
  | nil => simp
  | cons p rest ih =>
      by_cases h : p.1 = k
      · rw [List.map_cons, if_pos (by simpa using h),
          List.find?_cons_of_pos _ (by simp), if_pos (by simp [h])]
      · rw [List.map_cons, if_neg (by simpa using h),
          List.find?_cons_of_neg _ (by simp [h]), ih, List.any_cons]
        have hcond : (p.1 == k || rest.any fun q => q.1 == k) =
            (rest.any fun q => q.1 == k) := by
          simp [h]
        rw [hcond]

/-- Substituting the `k`-keyed entries does not change lookup of another
key. -/
theorem find?_map_subst_ne (k v k' : String) (hk : k' ≠ k) (o : JsObj) :
    (o.map (fun p => if p.1 == k then (k, v) else p)).find? (fun p => p.1 == k') =
      o.find? (fun p => p.1 == k') := by
  induction o with
  | nil => simp
  | cons p rest ih =>
      by_cases h : p.1 = k
      · have hne : ¬p.1 = k' := by
          rw [h]
          exact fun hc => hk hc.symm
        rw [List.map_cons, if_pos (by simpa using h),
          List.find?_cons_of_neg _ (by simpa using fun hc => hk hc.symm),
          List.find?_cons_of_neg _ (by simpa using hne)]
        exact ih
      · rw [List.map_cons, if_neg (by simpa using h)]
        by_cases h' : p.1 = k'
        · rw [List.find?_cons_of_pos _ (by simpa using h'),
            List.find?_cons_of_pos _ (by simpa using h')]
        · rw [List.find?_cons_of_neg _ (by simpa using h'),
            List.find?_cons_of_neg _ (by simpa using h')]
          exact ih

/-- Lookup after a JS spread-assign: the assigned key reads the assigned
value; every other key reads what the original object held. -/
theorem getKey_spreadSet (o : JsObj) (k v k' : String) :
    getKey (spreadSet o k v) k' =
      if k' = k then some v else getKey o k' := by
  unfold spreadSet getKey
  by_cases hmem : o.any (fun p => p.1 == k)
  · rw [if_pos hmem]
    by_cases hk : k' = k
    · subst hk
      rw [find?_map_subst, if_pos hmem]
      simp
    · rw [find?_map_subst_ne k v k' hk o, if_neg hk]
  · rw [if_neg hmem]
    rw [List.find?_append]
    by_cases hk : k' = k
    · subst hk
      have hnone : o.find? (fun p => p.1 == k') = none := by
        rw [List.find?_eq_none]
        intro p hp
        simp only [List.any_eq_true] at hmem
        simpa using fun hc => hmem ⟨p, hp, by simpa using hc⟩
      rw [hnone]
      simp
    · have hlast : List.find? (fun p => p.1 == k') [(k, v)] = none := by
        rw [List.find?_eq_none]
        intro p hp
        simp only [List.mem_singleton] at hp
        subst hp
        simpa using fun hc => hk hc.symm
      rw [hlast, if_neg hk]
      cases o.find? (fun p => p.1 == k') <;> rfl

/-- Claim C6: in every one-to-many resolution the where clause sent to
storage binds the configured foreign key to the parent's id, overriding any
same-named key in the caller's filter; every other caller where key and the
caller's pagination are forwarded unchanged, and the fetch happens on the
target model. -/
theorem resolveOneToMany_fk_overrides
    (dpFindMany : String → Ability → OneToManyQuery → Select → List Entity)
    (ability : Ability) (targetModel foreignKey itemId : String) (select : Select)
    (whereOpt : Option RelationFilterArg) :
    getKey (resolveOneToManyQuery foreignKey itemId whereOpt).whereArg foreignKey =
      some itemId ∧
    (∀ k, k ≠ foreignKey →
      getKey (resolveOneToManyQuery foreignKey itemId whereOpt).whereArg k =
        getKey ((whereOpt.bind (fun w => w.whereArg)).getD []) k) ∧
    (resolveOneToManyQuery foreignKey itemId whereOpt).pagination =
      whereOpt.bind (fun w => w.pagination) ∧
    resolveOneToMany dpFindMany ability targetModel foreignKey itemId select whereOpt =
      dpFindMany targetModel ability
        (resolveOneToManyQuery foreignKey itemId whereOpt) select := by
  refine ⟨?_, ?_, rfl, rfl⟩
  · rw [resolveOneToManyQuery, getKey_spreadSet]
    simp
  · intro k hk
    rw [resolveOneToManyQuery, getKey_spreadSet]
    simp [hk]

/-- Witness for C6 at a concrete caller filter that tries to set the foreign
key itself: the core-injected parent id wins, the other key survives, the
pagination is forwarded. -/
theorem resolveOneToMany_fk_overrides_witness :
    getKey (resolveOneToManyQuery "authorId" "u1"
        (some { whereArg := some [("authorId", "evil"), ("title", "x")]
                pagination := some { take := some 5, skip := some 0 } })).whereArg
      "authorId" = some "u1" ∧
    getKey (resolveOneToManyQuery "authorId" "u1"
        (some { whereArg := some [("authorId", "evil"), ("title", "x")]
                pagination := some { take := some 5, skip := some 0 } })).whereArg
      "title" = some "x" ∧
    (resolveOneToManyQuery "authorId" "u1"
        (some { whereArg := some [("authorId", "evil"), ("title", "x")]
                pagination := some { take := some 5, skip := some 0 } })).pagination =
      some { take := some 5, skip := some 0 } := by
  have h := resolveOneToMany_fk_overrides (fun _ _ _ _ => []) "a" "post" "authorId" "u1" []
    (some { whereArg := some [("authorId", "evil"), ("title", "x")]
            pagination := some { take := some 5, skip := some 0 } })
  exact ⟨h.1, by rw [h.2.1 "title" (by decide)]; decide, h.2.2.1⟩

/-! ## C7 — the synthesized resolver's exposed operations

`createBaseCrudResolver` (src/createBaseCrudResolver.ts lines 151-376)
declares the decorated base members; `createCombinedRelationResolverClass`
(src/createCombinedRelationResolverClass.ts lines 130-138) folds the relation
configs over the accumulator class, each factory
(`createOneToManyResolver`, `createOneToOneResolver`, `createCustomResolver`)
subclassing it with exactly one additional decorated field-resolver method
named `resolve` + capitalized field name; each custom-resolver method binding
likewise contributes exactly one decorated query/mutation/field member
(src/createCustomResolver.ts).  A class in the chain is modelled by the list
of its decorated operation descriptors; subclass members shadow same-named
parent members. -/

/-- Operation kinds carried by the framework decorators. -/
inductive OpKind where
  | query
  | mutation
  | subscription
  | field
deriving DecidableEq, Repr

/-- One decorated operation of a synthesized resolver class: its kind, the
class member name, and the GraphQL-visible name. -/
structure OpDescriptor where
  kind : OpKind
  methodName : String
  gqlName : String
deriving DecidableEq, Repr

/-- `firstLetterUppercase` (src/decorators.ts): capitalize the first
character, keep the rest. -/
def firstLetterUppercase (str : String) : String :=
  match str.toList with
  | [] => ""
  | c :: rest => String.mk (c.toUpper :: rest)

/-- The decorated members of the base CRUD resolver class
(src/createBaseCrudResolver.ts lines 151-376): two queries, five mutations
and the subscription channel method named `` `${modelName}s` ``. -/
def baseCrudResolverOps (modelName : String) : List OpDescriptor :=
  [ { kind := .query, methodName := "findOne", gqlName := modelName ++ "FindOne" },
    { kind := .query, methodName := "findMany", gqlName := modelName ++ "FindMany" },
    { kind := .mutation, methodName := "create", gqlName := modelName ++ "Create" },
    { kind := .mutation, methodName := "updateOne", gqlName := modelName ++ "Update" },
    { kind := .mutation, methodName := "updateMany", gqlName := modelName ++ "UpdateMany" },
    { kind := .mutation, methodName := "deleteOne", gqlName := modelName ++ "Delete" },
    { kind := .mutation, methodName := "deleteMany", gqlName := modelName ++ "DeleteMany" },
    { kind := .subscription, methodName := modelName ++ "s", gqlName := modelName ++ "s" } ]

/-- The `RelationResolverConfig` tagged union (src/internalTypes.ts):
one-to-many, one-to-one (discriminant `oneToOneRelation`), or custom relation
(discriminant `factoryClass`), each carrying its GraphQL field name. -/
inductive RelationResolverConfig where
  | oneToMany (fieldName targetModel relationField : String)
      (hasTargetWhereInput whereNullable : Bool)
  | oneToOne (fieldName targetModel relationField : String) (nullable : Bool)
  | customRelation (fieldName factoryClass : String) (isMany : Bool)
deriving DecidableEq, Repr

/-- The field name of a relation config. -/
def relationFieldName : RelationResolverConfig → String
  | .oneToMany f _ _ _ _ => f
  | .oneToOne f _ _ _ => f
  | .customRelation f _ _ => f

/-- The single decorated member added by one step of the reduce in
`createCombinedRelationResolverClass` (lines 130-138), dispatching exactly as
the source does: `factoryClass in config` → `createCustomResolver`,
`oneToOneRelation in config` → `createOneToOneResolver`, otherwise
`createOneToManyResolver`.  All three factories add one `@ResolveField`
member at `` `resolve${firstLetterUppercase(fieldName)}` `` exposing the
GraphQL field `fieldName`. -/
def relationOp : RelationResolverConfig → OpDescriptor
  | .customRelation f _ _ =>
      { kind := .field, methodName := "resolve" ++ firstLetterUppercase f, gqlName := f }
  | .oneToOne f _ _ _ =>
      { kind := .field, methodName := "resolve" ++ firstLetterUppercase f, gqlName := f }
  | .oneToMany f _ _ _ _ =>
      { kind := .field, methodName := "resolve" ++ firstLetterUppercase f, gqlName := f }

/-- One custom-resolver method binding (the `CustomResolver` config of
src/internalTypes.ts): operation name, bound factory method, mutation flag,
optional resolve-field target. -/
structure CustomMethodBinding where
  name : String
  methodName : String
  isMutation : Bool
  resolveField : Option String
deriving DecidableEq, Repr

/-- The single decorated member added for a custom method binding by
`createCustomResolver` (src/createCustomResolver.ts): a `@Mutation` if
`isMutation`, else a `@ResolveField` if `resolveField` is set, else a
`@Query`; the class member is `config.name`. -/
def customOp (b : CustomMethodBinding) : OpDescriptor :=
  if b.isMutation then
    { kind := .mutation, methodName := b.name, gqlName := b.name }
  else
    match b.resolveField with
    | some f => { kind := .field, methodName := b.name, gqlName := f }
    | none => { kind := .query, methodName := b.name, gqlName := b.name }

/-- Subclassing a chain class with one more decorated member: a same-named
member shadows the parent's, otherwise the member list grows by one. -/
def addMember (members : List OpDescriptor) (op : OpDescriptor) : List OpDescriptor :=
  members.filter (fun o => !(o.methodName == op.methodName)) ++ [op]

/-- The operations exposed by the final synthesized resolver for one entity:
the base CRUD resolver members, then the left fold of the relation configs
(the reduce of createCombinedRelationResolverClass, seeded with the base
resolver as in createBaseCrudModule), then one member per custom-resolver
method binding.

Modelled from the spec: the caller that folds the custom-resolver method
bindings onto the chain (the counterpart of the relation reduce for
`createCustomResolver`) is not present under src/; §4.2 prescribes that the
chain folds left-to-right over relation configs followed by custom-resolver
method bindings, which is what the outer fold does. -/
def exposedOps (modelName : String) (relationConfigs : List RelationResolverConfig)
    (customBindings : List CustomMethodBinding) : List OpDescriptor :=
  customBindings.foldl (fun acc b => addMember acc (customOp b))
    (relationConfigs.foldl (fun acc c => addMember acc (relationOp c))
      (baseCrudResolverOps modelName))

/-- Claim C7 (counterexample): for the entity config with model name "user"
and no relation or custom configs, the synthesized resolver exposes 8
operations — 7 base CRUD operations (2 queries and 5 mutations) plus 1
subscription — not the 6 + 1 the claim states. -/
theorem exposed_ops_base_count_cex :
    (exposedOps "user" [] []).length = 8 ∧
    ((exposedOps "user" [] []).filter
      (fun o => !(o.kind == OpKind.subscription))).length = 7 ∧
    (exposedOps "user" [] []).length ≠ 6 + 1 := by
  decide

/-- Appending one fresh-named member to the chain is plain append. -/
theorem addMember_of_fresh (init : List OpDescriptor) (op : OpDescriptor)
    (h : ∀ o ∈ init, o.methodName ≠ op.methodName) :
    addMember init op = init ++ [op] := by
  unfold addMember
  have hf : init.filter (fun o => !(o.methodName == op.methodName)) = init := by
    apply List.filter_eq_self.mpr
    intro o ho
    simpa using h o ho
  rw [hf]

/-- Folding fresh-named members over the chain is plain append, provided the
member names of the seed and the folded members are pairwise distinct. -/
theorem foldl_addMember_of_nodup (ops : List OpDescriptor) (init : List OpDescriptor)
    (h : ((init ++ ops).map (fun o => o.methodName)).Nodup) :
    ops.foldl addMember init = init ++ ops := by
  induction ops generalizing init with
  | nil => simp
  | cons op rest ih =>
      rw [List.foldl_cons]
      have hmaps : (init.map (fun o => o.methodName) ++
          (op.methodName :: rest.map (fun o => o.methodName))).Nodup := by
        simpa using h
      rw [List.nodup_append] at hmaps
      have hfresh : ∀ o ∈ init, o.methodName ≠ op.methodName := by
        intro o ho hc
        exact hmaps.2.2 (List.mem_map_of_mem _ ho)
          (by rw [hc]; exact List.mem_cons_self _ _)
      rw [addMember_of_fresh init op hfresh]
      have h2 : (((init ++ [op]) ++ rest).map (fun o => o.methodName)).Nodup := by
        have : (init ++ [op]) ++ rest = init ++ op :: rest := by simp
        rw [this]
        simpa using h
      rw [ih (init ++ [op]) h2, List.append_assoc]
      rfl

/-- The intended member list of C7: base members, one per relation config,
one per custom binding, in chain order. -/
def intendedOps (modelName : String) (relationConfigs : List RelationResolverConfig)
    (customBindings : List CustomMethodBinding) : List OpDescriptor :=
  baseCrudResolverOps modelName ++ relationConfigs.map relationOp ++
    customBindings.map customOp

/-- The fold computing `exposedOps` reduces to the intended append when the
member names are pairwise distinct. -/
theorem exposedOps_eq_intended (m : String) (rels : List RelationResolverConfig)
    (binds : List CustomMethodBinding)
    (h : ((intendedOps m rels binds).map (fun o => o.methodName)).Nodup) :
    exposedOps m rels binds = intendedOps m rels binds := by
  unfold exposedOps intendedOps
  unfold intendedOps at h
  have h1 : ((baseCrudResolverOps m ++ rels.map relationOp).map
      (fun o => o.methodName)).Nodup := by
    rw [List.map_append] at h
    exact (List.nodup_append.mp h).1
  have e1 : rels.foldl (fun acc c => addMember acc (relationOp c)) (baseCrudResolverOps m)
      = baseCrudResolverOps m ++ rels.map relationOp := by
    rw [← List.foldl_map]
    exact foldl_addMember_of_nodup _ _ h1
  rw [e1, ← List.foldl_map]
  exact foldl_addMember_of_nodup _ _ h

/-- Claim C7 (amended): for every entity configuration whose synthesized
member names are pairwise distinct (in particular whose relation field names
and custom operation names are pairwise distinct and do not collide with the
base member names), the synthesized resolver exposes exactly the 7 base CRUD
operations (2 queries, 5 mutations), 1 subscription, one field-resolver per
relation config and one operation per custom-resolver method binding — no
duplicates, no omissions — and permuting the relation configs merely permutes
the exposed operations (the exposed set is order-independent). -/
theorem exposed_ops_exactly_configured (m : String)
    (rels rels' : List RelationResolverConfig) (binds : List CustomMethodBinding)
    (h : ((intendedOps m rels binds).map (fun o => o.methodName)).Nodup)
    (hperm : List.Perm rels' rels) :
    (exposedOps m rels binds).length = 8 + rels.length + binds.length ∧
    ((exposedOps m rels binds).map (fun o => o.methodName)).Nodup ∧
    (∀ op ∈ baseCrudResolverOps m, op ∈ exposedOps m rels binds) ∧
    (∀ c ∈ rels, relationOp c ∈ exposedOps m rels binds) ∧
    (∀ b ∈ binds, customOp b ∈ exposedOps m rels binds) ∧
    (∀ op ∈ exposedOps m rels binds, op ∈ baseCrudResolverOps m ∨
      (∃ c ∈ rels, op = relationOp c) ∨ (∃ b ∈ binds, op = customOp b)) ∧
    List.Perm (exposedOps m rels' binds) (exposedOps m rels binds) := by
  have he := exposedOps_eq_intended m rels binds h
  have hpermInt : List.Perm (intendedOps m rels' binds) (intendedOps m rels binds) := by
    unfold intendedOps
    exact ((hperm.map relationOp).append_left (baseCrudResolverOps m)).append_right
      (binds.map customOp)
  have h' : ((intendedOps m rels' binds).map (fun o => o.methodName)).Nodup :=
    ((hpermInt.map (fun o => o.methodName)).nodup_iff).mpr h
  have he' := exposedOps_eq_intended m rels' binds h'
  refine ⟨?_, ?_, ?_, ?_, ?_, ?_, ?_⟩
  · rw [he]
    unfold intendedOps baseCrudResolverOps
    simp only [List.length_append, List.length_map, List.length_cons, List.length_nil]
  · rw [he]
    exact h
  · intro op hop
    rw [he]
    unfold intendedOps
    exact List.mem_append_left _ (List.mem_append_left _ hop)
  · intro c hc
    rw [he]
    unfold intendedOps
    exact List.mem_append_left _
      (List.mem_append_right _ (List.mem_map_of_mem relationOp hc))
  · intro b hb
    rw [he]
    unfold intendedOps
    exact List.mem_append_right _ (List.mem_map_of_mem customOp hb)
  · intro op hop
    rw [he] at hop
    unfold intendedOps at hop
    rcases List.mem_append.mp hop with hop | hop
    · rcases List.mem_append.mp hop with hop | hop
      · exact Or.inl hop
      · obtain ⟨c, hc, hec⟩ := List.mem_map.mp hop
        exact Or.inr (Or.inl ⟨c, hc, hec.symm⟩)
    · obtain ⟨b, hb, heb⟩ := List.mem_map.mp hop
      exact Or.inr (Or.inr ⟨b, hb, heb.symm⟩)
  · rw [he, he']
    exact hpermInt

/-- Witness for the amended C7 theorem: model "user" with one one-to-many
relation `posts`, one one-to-one relation `profile`, one custom relation
`stats`, and one custom query binding `userSearch`; the exposed operations
number 8 + 3 + 1 and permuting the three relation configs leaves the exposed
operation set unchanged. -/
theorem exposed_ops_exactly_configured_witness :
    (exposedOps "user"
        [ .oneToMany "posts" "post" "authorId" true true,
          .oneToOne "profile" "profile" "profileId" true,
          .customRelation "stats" "StatsResolver" false ]
        [ { name := "userSearch", methodName := "search", isMutation := false,
            resolveField := none } ]).length = 8 + 3 + 1 ∧
    relationOp (.oneToOne "profile" "profile" "profileId" true) ∈
      exposedOps "user"
        [ .oneToMany "posts" "post" "authorId" true true,
          .oneToOne "profile" "profile" "profileId" true,
          .customRelation "stats" "StatsResolver" false ]
        [ { name := "userSearch", methodName := "search", isMutation := false,
            resolveField := none } ] := by
  have h := exposed_ops_exactly_configured "user"
    [ .oneToMany "posts" "post" "authorId" true true,
      .oneToOne "profile" "profile" "profileId" true,
      .customRelation "stats" "StatsResolver" false ]
    [ .oneToOne "profile" "profile" "profileId" true,
      .customRelation "stats" "StatsResolver" false,
      .oneToMany "posts" "post" "authorId" true true ]
    [ { name := "userSearch", methodName := "search", isMutation := false,
        resolveField := none } ]
    (by decide) (by decide)
  exact ⟨h.1, h.2.2.2.1 _ (by decide)⟩

/-! ## C8 — configuration builder guards

`CustomResolverConfig.addQuery` / `addMutation` / `addResolveField`
(src/crudModuleConfig.ts lines 280-311, 320-351, 360-394) each build the
method-binding record, then throw `Error('Custom resolver class not
registered')` if `options.resolvers` or `options.resolvers.customResolvers`
is absent, and only past those guards push the binding.
`withCustomResolver` (lines 220-246) is what installs `customResolvers`.
The mutable `options` object is modelled by explicit state passing; a throw
is `Except.error` carrying the message (no successor state, hence nothing
appended). -/

/-- The `customResolvers` slot of the options: the registered factory class
and the accumulated method bindings. -/
structure CustomResolversSlot where
  factoryClass : String
  customResolvers : List CustomMethodBinding
deriving DecidableEq, Repr

/-- The `resolvers` slot of the options. -/
structure ResolversSlot where
  relationResolvers : List RelationResolverConfig
  customResolvers : Option CustomResolversSlot
deriving DecidableEq, Repr

/-- The builder's mutable `options` value (the parts the custom-resolver
builder methods touch). -/
structure CrudModuleOptionsState where
  resolvers : Option ResolversSlot
  providers : List String
deriving DecidableEq, Repr

/-- `withCustomResolver` (src/crudModuleConfig.ts lines 220-246): initialize
`resolvers` if absent, install or replace the factory class, append the class
to the providers. -/
def withCustomResolver (opts : CrudModuleOptionsState) (resolverClass : String) :
    CrudModuleOptionsState :=
  let r := opts.resolvers.getD { relationResolvers := [], customResolvers := none }
  let cr :=
    match r.customResolvers with
    | none => { factoryClass := resolverClass, customResolvers := [] }
    | some cr0 => { cr0 with factoryClass := resolverClass }
  { opts with
    resolvers := some { r with customResolvers := some cr }
    providers := opts.providers ++ [resolverClass] }

/-- The shared guard-then-push tail of `addQuery`/`addMutation`/
`addResolveField`: throw unless a custom-resolver slot is present, else
append the binding. -/
def pushCustomResolver (opts : CrudModuleOptionsState) (customConfig : CustomMethodBinding) :
    Except String CrudModuleOptionsState :=
  match opts.resolvers with
  | none => .error "Custom resolver class not registered"
  | some r =>
      match r.customResolvers with
      | none => .error "Custom resolver class not registered"
      | some cr =>
          let cr2 :=
            { cr with customResolvers := cr.customResolvers ++ [customConfig] }
          .ok { opts with resolvers := some { r with customResolvers := some cr2 } }

/-- `addQuery` (src/crudModuleConfig.ts lines 280-311): build the binding
with `isMutation: false`, guard, push. -/
def addQuery (opts : CrudModuleOptionsState) (name methodName : String) :
    Except String CrudModuleOptionsState :=
  pushCustomResolver opts
    { name := name, methodName := methodName, isMutation := false, resolveField := none }

/-- `addMutation` (src/crudModuleConfig.ts lines 320-351): build the binding
with `isMutation: true`, guard, push. -/
def addMutation (opts : CrudModuleOptionsState) (name methodName : String) :
    Except String CrudModuleOptionsState :=
  pushCustomResolver opts
    { name := name, methodName := methodName, isMutation := true, resolveField := none }

/-- `addResolveField` (src/crudModuleConfig.ts lines 360-394): build the
binding with `resolveField` set, guard, push. -/
def addResolveField (opts : CrudModuleOptionsState) (name methodName fieldTarget : String) :
    Except String CrudModuleOptionsState :=
  pushCustomResolver opts
    { name := name, methodName := methodName, isMutation := false,
      resolveField := some fieldTarget }

/-- No custom-resolver factory class has been registered on this options
value (the state of a builder on which `withCustomResolver` was never
called: `resolvers` absent, or present without a `customResolvers` slot). -/
def noFactoryRegistered (opts : CrudModuleOptionsState) : Prop :=
  opts.resolvers = none ∨
    ∃ r, opts.resolvers = some r ∧ r.customResolvers = none

/-- Claim C8: calling `addQuery`, `addMutation` or `addResolveField` when no
custom-resolver factory class has been registered fails synchronously with
the configuration error message, and never yields a successor options state
(so no method binding can have been appended — no silent no-op). -/
theorem add_custom_before_register_throws (opts : CrudModuleOptionsState)
    (name methodName fieldTarget : String) (h : noFactoryRegistered opts) :
    addQuery opts name methodName = .error "Custom resolver class not registered" ∧
    addMutation opts name methodName = .error "Custom resolver class not registered" ∧
    addResolveField opts name methodName fieldTarget =
      .error "Custom resolver class not registered" ∧
    (∀ opts2, addQuery opts name methodName ≠ .ok opts2) ∧
    (∀ opts2, addMutation opts name methodName ≠ .ok opts2) ∧
    (∀ opts2, addResolveField opts name methodName fieldTarget ≠ .ok opts2) := by
  have hpush : ∀ b : CustomMethodBinding,
      pushCustomResolver opts b = .error "Custom resolver class not registered" := by
    intro b
    rcases h with h | ⟨r, hr, hcr⟩
    · simp [pushCustomResolver, h]
    · simp [pushCustomResolver, hr, hcr]
  refine ⟨hpush _, hpush _, hpush _, ?_, ?_, ?_⟩
  · intro opts2 hc
    rw [addQuery, hpush _] at hc
    exact Except.noConfusion hc
  · intro opts2 hc
    rw [addMutation, hpush _] at hc
    exact Except.noConfusion hc
  · intro opts2 hc
    rw [addResolveField, hpush _] at hc
    exact Except.noConfusion hc

/-- Witness for C8: a freshly seeded builder state (relation list present,
no factory class) rejects `addQuery` with the configuration error. -/
theorem add_custom_before_register_throws_witness :
    addQuery { resolvers := some { relationResolvers := [], customResolvers := none }
               providers := [] } "userSearch" "search" =
      .error "Custom resolver class not registered" :=
  (add_custom_before_register_throws
    { resolvers := some { relationResolvers := [], customResolvers := none }
      providers := [] } "userSearch" "search" "userField"
    (Or.inr ⟨_, rfl, rfl⟩)).1

/-- After `withCustomResolver`, the same call succeeds and appends exactly
one binding (the guard is about registration, not an unconditional
failure). -/
theorem add_query_after_register_appends :
    addQuery (withCustomResolver { resolvers := none, providers := [] } "Factory")
        "userSearch" "search" =
      .ok { resolvers := some
              { relationResolvers := []
                customResolvers := some
                  { factoryClass := "Factory"
                    customResolvers :=
                      [ { name := "userSearch"
                          methodName := "search"
                          isMutation := false
                          resolveField := none } ] } }
            providers := ["Factory"] } := by
  rfl

/-! ## C9 and C10 — default subscription resolution

`createSubscriptionResolver` (src/createSubscriptionResolver.ts): the default
`SubscriptionResolverImpl.filter` tests whether any id of the subscriber's
`DefaultSubscriptionFilter.inIds` equals the id of a changed entity, and
`resolve` re-fetches `{ where: { id: { in: filter.inIds } } }` through
`dataProvider.findManyWithoutAbility` with the caller's parsed field
selection.  The subscription hook installed by `createBaseCrudResolver`
passes `variables.filter` straight into the resolver; the GraphQL argument
is declared `nullable: true`, so it may be `undefined`, in which case
`filter.inIds` is a member access on `undefined` — a TypeError at event
time. -/

/-- The `DefaultSubscriptionFilter` input type (src/internalTypes.ts): an
explicit id list. -/
structure DefaultSubscriptionFilter where
  inIds : List String
deriving DecidableEq, Repr

/-- `SubscriptionResolverImpl.filter`: `filter.inIds.some(id =>
items.some(item => item.id === id))`. -/
def subscriptionFilterImpl (filter : DefaultSubscriptionFilter)
    (changes : List Entity) : Bool :=
  filter.inIds.any (fun id => changes.any (fun item => item.id == id))

/-- One `dataProvider.findManyWithoutAbility` invocation: model name, the id
list of the `{ id: { in: ... } }` where clause, selection — and no
authorization context (the contract has none). -/
structure FindManyWithoutAbilityCall where
  modelName : String
  inIds : List String
  select : Select
deriving DecidableEq, Repr

/-- An opaque GraphQL resolve-info value handed to the field-selection
collaborator. -/
abbrev ResolveInfo := String

/-- `SubscriptionResolverImpl.resolve`: parse the caller's selection, then
fetch the filter's id list without an ability, returning the fetch result;
instrumented with the storage call made. -/
def subscriptionResolveImpl
    (dpFindManyWithoutAbility : String → List String → Select → List Entity)
    (parseSelection : ResolveInfo → Select) (modelName : String)
    (filter : DefaultSubscriptionFilter) (changes : List Entity)
    (info : ResolveInfo) : List Entity × List FindManyWithoutAbilityCall :=
  let select := parseSelection info
  (dpFindManyWithoutAbility modelName filter.inIds select,
    [{ modelName := modelName, inIds := filter.inIds, select := select }])

/-- Claim C9: the default subscription filter delivers an event iff some id
in the subscriber's id list equals the id of some changed entity, and the
default resolve answers with exactly the result of one unauthorized storage
re-fetch of the filter's id list under the caller's parsed field selection
(the changed entities themselves are only consulted by the filter, not
returned). -/
theorem subscription_filter_iff_id_membership
    (dpFindManyWithoutAbility : String → List String → Select → List Entity)
    (parseSelection : ResolveInfo → Select) (modelName : String)
    (filter : DefaultSubscriptionFilter) (changes : List Entity)
    (info : ResolveInfo) :
    (subscriptionFilterImpl filter changes = true ↔
      ∃ i ∈ filter.inIds, ∃ c ∈ changes, c.id = i) ∧
    (subscriptionResolveImpl dpFindManyWithoutAbility parseSelection modelName
        filter changes info).1 =
      dpFindManyWithoutAbility modelName filter.inIds (parseSelection info) ∧
    (subscriptionResolveImpl dpFindManyWithoutAbility parseSelection modelName
        filter changes info).2 =
      [{ modelName := modelName, inIds := filter.inIds,
         select := parseSelection info }] := by
  refine ⟨?_, rfl, rfl⟩
  unfold subscriptionFilterImpl
  rw [List.any_eq_true]
  constructor
  · rintro ⟨i, hi, hc⟩
    rw [List.any_eq_true] at hc
    obtain ⟨c, hcmem, hceq⟩ := hc
    exact ⟨i, hi, c, hcmem, by simpa using hceq⟩
  · rintro ⟨i, hi, c, hcmem, hceq⟩
    refine ⟨i, hi, ?_⟩
    rw [List.any_eq_true]
    exact ⟨c, hcmem, by simpa using hceq⟩

/-- Witness for C9: subscriber ids `["a", "b"]` match a change set containing
id "b" and the resolve issues exactly the unauthorized fetch of that id
list. -/
theorem subscription_filter_iff_id_membership_witness :
    (subscriptionFilterImpl { inIds := ["a", "b"] }
        [{ id := "b", val := 0 }] = true ↔
      ∃ i ∈ ["a", "b"], ∃ c ∈ [({ id := "b", val := 0 } : Entity)], c.id = i) ∧
    (subscriptionResolveImpl (fun _ _ _ => [{ id := "b", val := 0 }])
        (fun _ => ["id"]) "user" { inIds := ["a", "b"] }
        [{ id := "b", val := 0 }] "info").2 =
      [{ modelName := "user", inIds := ["a", "b"], select := ["id"] }] :=
  ⟨(subscription_filter_iff_id_membership (fun _ _ _ => [{ id := "b", val := 0 }])
      (fun _ => ["id"]) "user" { inIds := ["a", "b"] }
      [{ id := "b", val := 0 }] "info").1,
    (subscription_filter_iff_id_membership (fun _ _ _ => [{ id := "b", val := 0 }])
      (fun _ => ["id"]) "user" { inIds := ["a", "b"] }
      [{ id := "b", val := 0 }] "info").2.2⟩

/-- A JS runtime error surfaced by the subscription filter hook. -/
inductive JsRuntimeError where
  | typeError (msg : String)
deriving DecidableEq, Repr

/-- The subscription `filter` hook installed by `createBaseCrudResolver`
(src/createBaseCrudResolver.ts lines 358-366) under the default resolver:
it calls `this.resolver.filter(variables.filter, payload.data)`, and the
`filter` argument is declared nullable, so `variables.filter` may be
`undefined`; the default implementation immediately reads `filter.inIds`,
which on `undefined` raises a TypeError instead of returning a boolean. -/
def subscriptionFilterHook (variablesFilter : Option DefaultSubscriptionFilter)
    (payloadData : List Entity) : Except JsRuntimeError Bool :=
  match variablesFilter with
  | none => .error (.typeError "Cannot read inIds of undefined")
  | some filter => .ok (subscriptionFilterImpl filter payloadData)

/-- Claim C10: with the nullable filter argument omitted, every event on the
channel makes the default filter hook dereference `inIds` on `undefined` and
throw — it neither delivers (`ok true`) nor cleanly skips (`ok false`), so
filterless delivery is impossible under the default subscription
resolution. -/
theorem subscription_filterless_always_throws (payloadData : List Entity) :
    subscriptionFilterHook none payloadData =
      .error (.typeError "Cannot read inIds of undefined") ∧
    (∀ b, subscriptionFilterHook none payloadData ≠ .ok b) := by
  refine ⟨rfl, ?_⟩
  intro b hc
  exact Except.noConfusion hc

/-- Witness for C10 on a concrete published event payload. -/
theorem subscription_filterless_always_throws_witness :
    subscriptionFilterHook none [{ id := "e1", val := 1 }] =
      .error (.typeError "Cannot read inIds of undefined") :=
  (subscription_filterless_always_throws [{ id := "e1", val := 1 }]).1

end NestjsCrud
